import Mathlib

/-!
# Verification of the `flood` training orchestrator (`src/train.py`)

A shallow embedding of the training loop in `train.py`.  The deep-learning
framework (tensor computation, autograd, optimizer, gradient scaler, data
loading, image decoding) is an external collaborator: its numeric outputs
(per-batch training losses, the validation loss, the rounded binary
predictions of the model on each validation sample) enter the embedding as
given data.  The orchestrator's own logic — the epoch loop, the validation
metric arithmetic, the running-best updates, checkpointing, mode switching
and metric reporting — is embedded faithfully, in source order, and the
theorems below are about that embedding.

Scalars are embedded as rationals (`ℚ`); the `float('inf')` initial value of
the running minimum validation loss is embedded as `⊤ : WithTop ℚ`.
Python exceptions (`ZeroDivisionError` from `TP / labels.sum().item()` when
the label sum is zero, the `RuntimeError` raised by `torch.cat` on an empty
list of tensors) are embedded as explicit error values that abort the run.
-/

namespace Flood

/-- A binary prediction/label pair for one validation sample: `fst` is the
model's prediction after sigmoid and round-to-nearest (threshold 0.5),
`snd` is the ground-truth label (`true` = positive class). -/
abbrev Sample := Bool × Bool

/-- `TP = (preds*labels).sum().item()` (train.py line 165): the number of
samples predicted positive whose label is positive. -/
def countTP (samples : List Sample) : Nat :=
  samples.countP (fun s => s.1 && s.2)

/-- `predicted_positives = preds.sum().item()` (train.py line 166). -/
def posPreds (samples : List Sample) : Nat :=
  samples.countP (fun s => s.1)

/-- `labels.sum().item()` (train.py line 171): number of positive labels. -/
def posLabels (samples : List Sample) : Nat :=
  samples.countP (fun s => s.2)

/-- `acc = torch.mean((preds == labels).float())` (train.py line 164). -/
def accuracy (samples : List Sample) : ℚ :=
  (samples.countP (fun s => s.1 == s.2) : ℚ) / (samples.length : ℚ)

/-- `precision = 0. if predicted_positives == 0 else TP / preds.sum().item()`
(train.py lines 167-170). -/
def precision (samples : List Sample) : ℚ :=
  if posPreds samples = 0 then 0
  else (countTP samples : ℚ) / (posPreds samples : ℚ)

/-- Errors that abort the run inside the validation block: the
`RuntimeError` of `torch.cat` on an empty tensor list (train.py line 158)
and the `ZeroDivisionError` of `recall = TP / (labels.sum().item())`
(train.py line 171). -/
inductive RunError
  | emptyValConcat
  | divByZeroRecall
deriving DecidableEq, Repr

/-- `recall = TP / (labels.sum().item())` (train.py line 171): a bare
division, with no guard against a zero label sum.  Python raises
`ZeroDivisionError` on float division by zero. -/
def recallResult (samples : List Sample) : Except RunError ℚ :=
  if posLabels samples = 0 then .error .divByZeroRecall
  else .ok ((countTP samples : ℚ) / (posLabels samples : ℚ))

/-- The four validation metrics of one validation round, as entered into
`log_info` (train.py lines 188-191). -/
structure ValMetrics where
  val_loss : ℚ
  val_acc : ℚ
  val_precision : ℚ
  val_recall : ℚ
deriving DecidableEq, Repr

/-- The metric block of the validation phase (train.py lines 162-171):
the loss over the concatenated predictions comes from the external loss
collaborator (`valLoss`); accuracy, TP, precision are computed first, then
the recall division, which is the only failing step. -/
def computeValMetrics (samples : List Sample) (valLoss : ℚ) :
    Except RunError ValMetrics :=
  match recallResult samples with
  | .error e => .error e
  | .ok rec => .ok ⟨valLoss, accuracy samples, precision samples, rec⟩

/-- The train/eval mode flag of the shared model object, toggled by
`model.train()` (lines 45, 193) and `model.eval()` (line 146). -/
inductive Mode
  | trainMode
  | evalMode
deriving DecidableEq, Repr

/-- One `log_info` dict sent to `wandb.log` (lines 139, 188-191, 196): the
epoch's average training loss, plus the four validation metrics when the
epoch ran validation. -/
structure LogInfo where
  loss : ℚ
  val : Option ValMetrics
deriving DecidableEq, Repr

/-- The observable events of a run, in program order. -/
inductive Event
  | trainBatch (m : Mode)
  | valBatch (m : Mode)
  | saveCkpt (ep : Nat)
  | saveFinal
  | wandbLog (info : LogInfo)
deriving DecidableEq, Repr

/-- The external data of one epoch: the loss value of each training batch
(produced by the loss collaborator, one entry per batch of the training
loader), the validation batches (each a list of per-sample
prediction/label pairs, the predictions already sigmoid-rounded by the
framework), and the criterion's loss over the concatenated validation
batch (line 162). -/
structure EpochData where
  trainLosses : List ℚ
  valBatches : List (List Sample)
  valLoss : ℚ

/-- The running best metrics (lines 109-112): `min_val_loss` starts at
`float('inf')` (embedded as `⊤ : WithTop ℚ`), the three maxima at `0.`. -/
structure Bests where
  min_val_loss : WithTop ℚ
  max_val_acc : ℚ
  max_val_prec : ℚ
  max_val_rec : ℚ
deriving DecidableEq

def initBests : Bests := ⟨⊤, 0, 0, 0⟩

/-- The running-best update block (lines 173-184): an outer test whether
any metric beats its own prior best, then four independent conditional
updates. -/
def updateBests (b : Bests) (m : ValMetrics) : Bests :=
  if (m.val_loss : WithTop ℚ) < b.min_val_loss ∨ m.val_acc > b.max_val_acc
      ∨ m.val_precision > b.max_val_prec ∨ m.val_recall > b.max_val_rec then
    { min_val_loss :=
        if (m.val_loss : WithTop ℚ) < b.min_val_loss then (m.val_loss : WithTop ℚ)
        else b.min_val_loss
      max_val_acc :=
        if m.val_acc > b.max_val_acc then m.val_acc else b.max_val_acc
      max_val_prec :=
        if m.val_precision > b.max_val_prec then m.val_precision else b.max_val_prec
      max_val_rec :=
        if m.val_recall > b.max_val_rec then m.val_recall else b.max_val_rec }
  else b

/-- The orchestrator state the claims observe: the model's mode flag and
the four running bests. -/
structure RunState where
  mode : Mode
  bests : Bests
deriving DecidableEq

/-- The outcome of running a piece of the loop: the events emitted, the
state at exit, and the Python exception if one was raised (aborting the
run at that point). -/
structure StepOut where
  events : List Event
  state : RunState
  err : Option RunError
deriving DecidableEq

/-- Modelled from the spec: `AverageMeter` (utils/general.py, not under
src/) tracks "the running mean of the unscaled loss value across the
epoch" (spec §4.2); its `avg` is the mean of the recorded values. -/
def avgLoss (ls : List ℚ) : ℚ := ls.sum / (ls.length : ℚ)

/-- One iteration of the epoch loop (lines 114-196) at epoch `ep`: process
every training batch with the model in its current mode, build `log_info`
with the epoch's average loss, run the validation block when
`ep % val_step == 0` — switch to eval mode, pass over the validation
loader, concatenate (`torch.cat` raises on an empty list), compute the
metrics (the recall division may raise), update the running bests, save
the epoch checkpoint, extend `log_info`, switch back to train mode — and
finally `wandb.log(log_info)` when tracking is enabled.  An exception
aborts the epoch at the point where it is raised. -/
def runEpoch (valStep : Nat) (useWandb : Bool) (ep : Nat) (d : EpochData)
    (st : RunState) : StepOut :=
  let trainEvents := d.trainLosses.map (fun _ => Event.trainBatch st.mode)
  let logLoss := avgLoss d.trainLosses
  if ep % valStep = 0 then
    let st1 : RunState := { st with mode := .evalMode }
    let valEvents := d.valBatches.map (fun _ => Event.valBatch st1.mode)
    if d.valBatches.isEmpty then
      ⟨trainEvents ++ valEvents, st1, some .emptyValConcat⟩
    else
      match computeValMetrics d.valBatches.flatten d.valLoss with
      | .error e => ⟨trainEvents ++ valEvents, st1, some e⟩
      | .ok m =>
        let st2 : RunState := ⟨Mode.trainMode, updateBests st1.bests m⟩
        let info : LogInfo := ⟨logLoss, some m⟩
        let logEvents := if useWandb then [Event.wandbLog info] else []
        ⟨trainEvents ++ valEvents ++ [Event.saveCkpt ep] ++ logEvents, st2, none⟩
  else
    let info : LogInfo := ⟨logLoss, none⟩
    let logEvents := if useWandb then [Event.wandbLog info] else []
    ⟨trainEvents ++ logEvents, st, none⟩

/-- The epoch loop `for ep in range(1, epochs + 1)` resumed at epoch `ep`
with `n` epochs left; an exception stops the loop and propagates.  `data`
supplies each epoch's external batch data. -/
def runEpochs (valStep : Nat) (useWandb : Bool) (data : Nat → EpochData) :
    Nat → Nat → RunState → StepOut
  | _, 0, st => ⟨[], st, none⟩
  | ep, n + 1, st =>
    let o := runEpoch valStep useWandb ep (data ep) st
    match o.err with
    | some e => ⟨o.events, o.state, some e⟩
    | none =>
      let o2 := runEpochs valStep useWandb data (ep + 1) n o.state
      ⟨o.events ++ o2.events, o2.state, o2.err⟩

/-- The `train()` body from line 109 on: running bests initialised (lines
109-112), the model in training mode since line 45, then the epoch loop
over epochs 1..epochs. -/
def runTrain (valStep : Nat) (useWandb : Bool) (epochs : Nat)
    (data : Nat → EpochData) : StepOut :=
  runEpochs valStep useWandb data 1 epochs ⟨Mode.trainMode, initBests⟩

/-- The `__main__` block (lines 201-203): run `train()`, then save the one
final checkpoint './weights/fin.pth'. -/
def runMain (valStep : Nat) (useWandb : Bool) (epochs : Nat)
    (data : Nat → EpochData) : StepOut :=
  let o := runTrain valStep useWandb epochs data
  match o.err with
  | some e => ⟨o.events, o.state, some e⟩
  | none => ⟨o.events ++ [Event.saveFinal], o.state, none⟩

/-- The nested `sgd` configuration entry (lines 91-94). -/
structure SgdCfg where
  lr : ℚ
  momentum : ℚ
  nesterov : Bool
  decay : ℚ
deriving DecidableEq

/-- Modelled from the spec: the configuration mapping produced by
`load_yaml('config.yaml')` (utils/general.py, not under src/).  Spec §6
lists the recognized keys; a key absent from the file is an absent entry
of the mapping, embedded as `none`. -/
structure Config where
  cuda : Option Bool
  wandb : Option Bool
  epochs : Option Nat
  batch_size : Option Nat
  val_step : Option Nat
  ema : Option Bool
  workers : Option Nat
  sgd : Option SgdCfg
  scheduler : Option Bool
  train_path : Option String
  val_path : Option String
  pos_weight : Option ℚ

/-- Modelled from the spec: "if a required configuration key is absent,
setup fails with a ConfigurationError (missing/invalid key)" (spec §4.1
and §7). -/
inductive SetupError
  | configurationError (key : String)
deriving DecidableEq

/-- Reading one key of the configuration mapping (`opt['...']`): a missing
key fails with a `configurationError` naming the key. -/
def getKey {α : Type} (key : String) (v : Option α) : Except SetupError α :=
  match v with
  | none => .error (.configurationError key)
  | some a => .ok a

/-- The configuration values in force once setup succeeded. -/
structure Settings where
  cuda : Bool
  wandb : Bool
  epochs : Nat
  batch_size : Nat
  val_step : Nat
  ema : Bool
  workers : Nat
  sgd : SgdCfg
  scheduler : Bool
  train_path : String
  val_path : String
  pos_weight : ℚ

/-- The setup phase of `train()` (lines 29-107): every configuration key
is read before the epoch loop at line 114 starts — lines 30-38 read cuda,
wandb, epochs, batch_size, val_step, ema, workers, sgd, scheduler; lines
57-58 read train_path and val_path; line 104 reads pos_weight.  A missing
key raises before any training step executes. -/
def setup (c : Config) : Except SetupError Settings := do
  let cuda ← getKey "cuda" c.cuda
  let wandb ← getKey "wandb" c.wandb
  let epochs ← getKey "epochs" c.epochs
  let batch_size ← getKey "batch_size" c.batch_size
  let val_step ← getKey "val_step" c.val_step
  let ema ← getKey "ema" c.ema
  let workers ← getKey "workers" c.workers
  let sgd ← getKey "sgd" c.sgd
  let scheduler ← getKey "scheduler" c.scheduler
  let train_path ← getKey "train_path" c.train_path
  let val_path ← getKey "val_path" c.val_path
  let pos_weight ← getKey "pos_weight" c.pos_weight
  return ⟨cuda, wandb, epochs, batch_size, val_step, ema, workers, sgd,
          scheduler, train_path, val_path, pos_weight⟩

/-- The outcome of the whole program: either setup raised a
`SetupError` (before the epoch loop), or the run proper produced a
`StepOut`. -/
inductive FullResult
  | configFailed (e : SetupError)
  | ran (o : StepOut)

/-- The whole program: load and read the configuration, then train and
save the final checkpoint. -/
def fullRun (c : Config) (data : Nat → EpochData) : FullResult :=
  match setup c with
  | .error e => .configFailed e
  | .ok s => .ran (runMain s.val_step s.wandb s.epochs data)

/-- The events a whole-program outcome emitted: none at all when setup
failed. -/
def FullResult.events : FullResult → List Event
  | .configFailed _ => []
  | .ran o => o.events

/-- The checkpoint epochs recorded in a trace, in order. -/
def ckptEpochs (evs : List Event) : List Nat :=
  evs.filterMap (fun e => match e with | .saveCkpt n => some n | _ => none)

/-- The wandb reports recorded in a trace, in order. -/
def wandbLogs (evs : List Event) : List LogInfo :=
  evs.filterMap (fun e => match e with | .wandbLog i => some i | _ => none)

/-- `b'` improves on `b`: every running best of `b'` is at least as good
as the corresponding one of `b`. -/
def Bests.improves (b' b : Bests) : Prop :=
  b'.min_val_loss ≤ b.min_val_loss ∧ b.max_val_acc ≤ b'.max_val_acc ∧
  b.max_val_prec ≤ b'.max_val_prec ∧ b.max_val_rec ≤ b'.max_val_rec

instance (b' b : Bests) : Decidable (b'.improves b) := by
  unfold Bests.improves
  infer_instance

/-! ## Helper lemmas -/

/-- A true positive is in particular a positive prediction. -/
theorem countTP_le_posPreds (samples : List Sample) :
    countTP samples ≤ posPreds samples :=
  List.countP_mono_left (fun _ _ h => ((Bool.and_eq_true _ _).mp h).1)

theorem filterMap_map_const_none {α β γ : Type} (l : List α) (c : β)
    (f : β → Option γ) (h : f c = none) :
    (l.map fun _ => c).filterMap f = [] := by
  induction l with
  | nil => rfl
  | cons a t ih => simp [List.filterMap_cons, h, ih]

theorem ckptEpochs_append (l l' : List Event) :
    ckptEpochs (l ++ l') = ckptEpochs l ++ ckptEpochs l' :=
  List.filterMap_append l l' _

theorem wandbLogs_append (l l' : List Event) :
    wandbLogs (l ++ l') = wandbLogs l ++ wandbLogs l' :=
  List.filterMap_append l l' _

theorem ckptEpochs_map_trainBatch {α : Type} (l : List α) (m : Mode) :
    ckptEpochs (l.map fun _ => Event.trainBatch m) = [] :=
  filterMap_map_const_none l _ _ rfl

theorem ckptEpochs_map_valBatch {α : Type} (l : List α) (m : Mode) :
    ckptEpochs (l.map fun _ => Event.valBatch m) = [] :=
  filterMap_map_const_none l _ _ rfl

theorem wandbLogs_map_trainBatch {α : Type} (l : List α) (m : Mode) :
    wandbLogs (l.map fun _ => Event.trainBatch m) = [] :=
  filterMap_map_const_none l _ _ rfl

theorem wandbLogs_map_valBatch {α : Type} (l : List α) (m : Mode) :
    wandbLogs (l.map fun _ => Event.valBatch m) = [] :=
  filterMap_map_const_none l _ _ rfl

/-! ## Claim C1: the unguarded recall division -/

/-- C1: In every validation round, recall is computed as TP divided by the
number of positive labels, with no guard: with zero positive labels the
metric block fails with the division-by-zero error instead of producing a
value, and with at least one positive label it produces exactly
`TP / posLabels` as the recall. -/
theorem recall_unguarded_division (samples : List Sample) (valLoss : ℚ) :
    (posLabels samples = 0 →
      computeValMetrics samples valLoss = .error .divByZeroRecall) ∧
    (posLabels samples ≠ 0 →
      computeValMetrics samples valLoss =
        .ok ⟨valLoss, accuracy samples, precision samples,
             (countTP samples : ℚ) / (posLabels samples : ℚ)⟩) := by
  constructor <;> intro h <;> simp [computeValMetrics, recallResult, h]

/-- Witness for C1 at two concrete one-sample validation sets. -/
theorem recall_unguarded_division_witness :
    computeValMetrics [(true, false)] 0 = .error .divByZeroRecall ∧
    computeValMetrics [(true, true)] 0 =
      .ok ⟨0, accuracy [(true, true)], precision [(true, true)],
           (countTP [(true, true)] : ℚ) / (posLabels [(true, true)] : ℚ)⟩ := by
  exact ⟨(recall_unguarded_division [(true, false)] 0).1 (by decide),
         (recall_unguarded_division [(true, true)] 0).2 (by decide)⟩

/-! ## Claim C2: precision bounds and its zero case -/

/-- C2 counterexample: for a validation round with one sample predicted
positive but labelled negative, there is a positive prediction
(`posPreds = 1 ≠ 0`) yet the computed precision is `0 / 1 = 0` — so
precision is not zero "exactly when" the number of positive predictions is
zero. -/
theorem precision_zero_despite_positive_pred :
    posPreds [(true, false)] = 1 ∧ precision [(true, false)] = 0 := by
  refine ⟨by decide, ?_⟩
  norm_num [precision, countTP, posPreds]

/-- C2 amended: for every validation round, precision lies in [0,1]; it
equals 0 when the number of positive predictions is zero, and when at
least one positive prediction exists it equals TP divided by the number of
positive predictions; it equals 0 exactly when TP is zero. -/
theorem precision_bounds (samples : List Sample) :
    0 ≤ precision samples ∧ precision samples ≤ 1 ∧
    (posPreds samples = 0 → precision samples = 0) ∧
    (posPreds samples ≠ 0 →
      precision samples = (countTP samples : ℚ) / (posPreds samples : ℚ)) ∧
    (precision samples = 0 ↔ countTP samples = 0) := by
  have hle := countTP_le_posPreds samples
  unfold precision
  by_cases h : posPreds samples = 0
  · have htp : countTP samples = 0 := Nat.le_zero.mp (h ▸ hle)
    simp [h, htp]
  · have hpos : 0 < (posPreds samples : ℚ) := by
      exact_mod_cast Nat.pos_of_ne_zero h
    rw [if_neg h]
    refine ⟨by positivity, ?_, fun h0 => absurd h0 h, fun _ => rfl, ?_⟩
    · rw [div_le_one hpos]
      exact_mod_cast hle
    · rw [div_eq_zero_iff]
      constructor
      · rintro (h0 | h0)
        · exact_mod_cast h0
        · exact absurd h0 (ne_of_gt hpos)
      · intro h0
        exact Or.inl (by exact_mod_cast h0)

/-- Witness for C2 at concrete validation sets, one with and one without a
positive prediction. -/
theorem precision_bounds_witness :
    precision [(true, true)] =
      (countTP [(true, true)] : ℚ) / (posPreds [(true, true)] : ℚ) ∧
    precision [(false, false)] = 0 := by
  exact ⟨(precision_bounds [(true, true)]).2.2.2.1 (by decide),
         (precision_bounds [(false, false)]).2.2.1 (by decide)⟩

/-! ## Claim C3: the four-sample scenario -/

/-- C3: on the validation round whose concatenated labels are [1,0,1,0]
and whose rounded predictions are [1,0,0,0], the computed metrics are
TP = 1, precision = 1, recall = 1/2, accuracy = 3/4 (for whatever loss
value the criterion produced on the raw logits). -/
theorem scenario_four_samples (valLoss : ℚ) :
    countTP [(true, true), (false, false), (false, true), (false, false)] = 1 ∧
    computeValMetrics [(true, true), (false, false), (false, true), (false, false)]
        valLoss =
      .ok ⟨valLoss, 3 / 4, 1, 1 / 2⟩ := by
  refine ⟨by decide, ?_⟩
  norm_num [computeValMetrics, recallResult, accuracy, precision,
    countTP, posPreds, posLabels]

/-! ## Claim C4: the running bests are monotone -/

theorem Bests.improves_refl (b : Bests) : b.improves b :=
  ⟨le_refl _, le_refl _, le_refl _, le_refl _⟩

theorem Bests.improves_trans {a b c : Bests} (h1 : a.improves b)
    (h2 : b.improves c) : a.improves c :=
  ⟨le_trans h1.1 h2.1, le_trans h2.2.1 h1.2.1, le_trans h2.2.2.1 h1.2.2.1,
   le_trans h2.2.2.2 h1.2.2.2⟩

/-- The outer any-metric-beats-its-best test of lines 173-176 is
redundant: each running best follows its own conditional update. -/
theorem updateBests_fields (b : Bests) (m : ValMetrics) :
    (updateBests b m).min_val_loss =
      (if (m.val_loss : WithTop ℚ) < b.min_val_loss then (m.val_loss : WithTop ℚ)
       else b.min_val_loss) ∧
    (updateBests b m).max_val_acc =
      (if m.val_acc > b.max_val_acc then m.val_acc else b.max_val_acc) ∧
    (updateBests b m).max_val_prec =
      (if m.val_precision > b.max_val_prec then m.val_precision else b.max_val_prec) ∧
    (updateBests b m).max_val_rec =
      (if m.val_recall > b.max_val_rec then m.val_recall else b.max_val_rec) := by
  unfold updateBests
  by_cases hc : (m.val_loss : WithTop ℚ) < b.min_val_loss ∨ m.val_acc > b.max_val_acc
      ∨ m.val_precision > b.max_val_prec ∨ m.val_recall > b.max_val_rec
  · rw [if_pos hc]
    exact ⟨rfl, rfl, rfl, rfl⟩
  · rw [if_neg hc]
    push_neg at hc
    obtain ⟨h1, h2, h3, h4⟩ := hc
    refine ⟨?_, ?_, ?_, ?_⟩
    · rw [if_neg (not_lt.mpr h1)]
    · rw [if_neg (not_lt.mpr h2)]
    · rw [if_neg (not_lt.mpr h3)]
    · rw [if_neg (not_lt.mpr h4)]

theorem updateBests_improves (b : Bests) (m : ValMetrics) :
    (updateBests b m).improves b := by
  obtain ⟨h1, h2, h3, h4⟩ := updateBests_fields b m
  refine ⟨?_, ?_, ?_, ?_⟩
  · rw [h1]
    split
    next h => exact le_of_lt h
    next => exact le_refl _
  · rw [h2]
    split
    next h => exact le_of_lt h
    next => exact le_refl _
  · rw [h3]
    split
    next h => exact le_of_lt h
    next => exact le_refl _
  · rw [h4]
    split
    next h => exact le_of_lt h
    next => exact le_refl _

theorem runEpoch_bests_improves (valStep : Nat) (useWandb : Bool) (ep : Nat)
    (d : EpochData) (st : RunState) :
    (runEpoch valStep useWandb ep d st).state.bests.improves st.bests := by
  simp only [runEpoch]
  split
  · split
    · exact Bests.improves_refl _
    · split
      · exact Bests.improves_refl _
      · exact updateBests_improves _ _
  · exact Bests.improves_refl _

theorem runEpochs_bests_improves (valStep : Nat) (useWandb : Bool)
    (data : Nat → EpochData) :
    ∀ (n ep : Nat) (st : RunState),
      (runEpochs valStep useWandb data ep n st).state.bests.improves st.bests := by
  intro n
  induction n with
  | zero =>
    intro ep st
    exact Bests.improves_refl _
  | succ n ih =>
    intro ep st
    simp only [runEpochs]
    cases he : (runEpoch valStep useWandb ep (data ep) st).err with
    | some e =>
      simpa [he] using runEpoch_bests_improves valStep useWandb ep (data ep) st
    | none =>
      simp only [he]
      exact Bests.improves_trans
        (ih (ep + 1) (runEpoch valStep useWandb ep (data ep) st).state)
        (runEpoch_bests_improves valStep useWandb ep (data ep) st)

/-- C4: each of the four running-best scalars is updated independently of
the others — it is set to the round's value exactly when the new round
beats its own prior best and is left unchanged otherwise, so it never
regresses and is never reset — and across any segment of the epoch loop
the bests at exit improve on (or equal) the bests at entry, so each scalar
is monotonic from one validation round to the next across the whole run. -/
theorem running_bests_monotone :
    (∀ (b : Bests) (m : ValMetrics),
      ((updateBests b m).min_val_loss =
        if (m.val_loss : WithTop ℚ) < b.min_val_loss then (m.val_loss : WithTop ℚ)
        else b.min_val_loss) ∧
      ((updateBests b m).max_val_acc =
        if m.val_acc > b.max_val_acc then m.val_acc else b.max_val_acc) ∧
      ((updateBests b m).max_val_prec =
        if m.val_precision > b.max_val_prec then m.val_precision else b.max_val_prec) ∧
      ((updateBests b m).max_val_rec =
        if m.val_recall > b.max_val_rec then m.val_recall else b.max_val_rec) ∧
      (updateBests b m).improves b) ∧
    (∀ (valStep : Nat) (useWandb : Bool) (data : Nat → EpochData) (n ep : Nat)
        (st : RunState),
      (runEpochs valStep useWandb data ep n st).state.bests.improves st.bests) :=
  ⟨fun b m =>
    ⟨(updateBests_fields b m).1, (updateBests_fields b m).2.1,
     (updateBests_fields b m).2.2.1, (updateBests_fields b m).2.2.2,
     updateBests_improves b m⟩,
   fun valStep useWandb data n ep st =>
     runEpochs_bests_improves valStep useWandb data n ep st⟩

/-! ## Branch descriptions of one epoch iteration -/

/-- A non-validation epoch: training batches, then the report; state
untouched, no exception. -/
theorem runEpoch_noval (valStep : Nat) (useWandb : Bool) (ep : Nat)
    (d : EpochData) (st : RunState) (hv : ¬ep % valStep = 0) :
    runEpoch valStep useWandb ep d st =
      ⟨(d.trainLosses.map fun _ => Event.trainBatch st.mode) ++
        (if useWandb then [Event.wandbLog ⟨avgLoss d.trainLosses, none⟩] else []),
       st, none⟩ := by
  simp only [runEpoch]
  rw [if_neg hv]

/-- A validation epoch whose validation loader yielded no batches:
`torch.cat` raises, with the model already in eval mode, before any metric
or checkpoint. -/
theorem runEpoch_val_empty (valStep : Nat) (useWandb : Bool) (ep : Nat)
    (d : EpochData) (st : RunState) (hv : ep % valStep = 0)
    (he : d.valBatches = []) :
    runEpoch valStep useWandb ep d st =
      ⟨(d.trainLosses.map fun _ => Event.trainBatch st.mode) ++
        (d.valBatches.map fun _ => Event.valBatch Mode.evalMode),
       ⟨Mode.evalMode, st.bests⟩, some .emptyValConcat⟩ := by
  simp only [runEpoch]
  rw [if_pos hv, he]
  rfl

/-- A validation epoch on which the metric block raises: the model is left
in eval mode, the bests untouched, no checkpoint, no report. -/
theorem runEpoch_val_err (valStep : Nat) (useWandb : Bool) (ep : Nat)
    (d : EpochData) (st : RunState) (hv : ep % valStep = 0) {e : RunError}
    (hm : computeValMetrics d.valBatches.flatten d.valLoss = .error e)
    (hne : d.valBatches ≠ []) :
    runEpoch valStep useWandb ep d st =
      ⟨(d.trainLosses.map fun _ => Event.trainBatch st.mode) ++
        (d.valBatches.map fun _ => Event.valBatch Mode.evalMode),
       ⟨Mode.evalMode, st.bests⟩, some e⟩ := by
  obtain ⟨b, t, hcons⟩ := List.exists_cons_of_ne_nil hne
  rw [hcons] at hm
  simp only [runEpoch]
  rw [if_pos hv, hcons, hm]
  rfl

/-- A validation epoch that completes: eval-mode validation batches, the
checkpoint for the epoch, the full report, the bests updated, the model
back in training mode. -/
theorem runEpoch_val_ok (valStep : Nat) (useWandb : Bool) (ep : Nat)
    (d : EpochData) (st : RunState) (hv : ep % valStep = 0) {m : ValMetrics}
    (hm : computeValMetrics d.valBatches.flatten d.valLoss = .ok m)
    (hne : d.valBatches ≠ []) :
    runEpoch valStep useWandb ep d st =
      ⟨(d.trainLosses.map fun _ => Event.trainBatch st.mode) ++
        (d.valBatches.map fun _ => Event.valBatch Mode.evalMode) ++
        [Event.saveCkpt ep] ++
        (if useWandb then [Event.wandbLog ⟨avgLoss d.trainLosses, some m⟩] else []),
       ⟨Mode.trainMode, updateBests st.bests m⟩, none⟩ := by
  obtain ⟨b, t, hcons⟩ := List.exists_cons_of_ne_nil hne
  rw [hcons] at hm
  simp only [runEpoch]
  rw [if_pos hv, hcons, hm]
  rfl

/-- An epoch finishing without an exception either ran no validation or
ran it on a non-empty validation set whose metric block succeeded. -/
theorem runEpoch_err_none (valStep : Nat) (useWandb : Bool) (ep : Nat)
    (d : EpochData) (st : RunState)
    (h : (runEpoch valStep useWandb ep d st).err = none) :
    ¬ep % valStep = 0 ∨
      (ep % valStep = 0 ∧ d.valBatches ≠ [] ∧
        ∃ m, computeValMetrics d.valBatches.flatten d.valLoss = .ok m) := by
  by_cases hv : ep % valStep = 0
  · right
    by_cases hne : d.valBatches = []
    · rw [runEpoch_val_empty valStep useWandb ep d st hv hne] at h
      simp at h
    · cases hm : computeValMetrics d.valBatches.flatten d.valLoss with
      | error e =>
        rw [runEpoch_val_err valStep useWandb ep d st hv hm hne] at h
        simp at h
      | ok m => exact ⟨hv, hne, m, rfl⟩
  · exact Or.inl hv

/-! ## Claim C5: the checkpoint schedule -/

theorem ckptEpochs_nil : ckptEpochs [] = [] := rfl

theorem ckptEpochs_saveCkpt (ep : Nat) : ckptEpochs [Event.saveCkpt ep] = [ep] := rfl

theorem ckptEpochs_saveFinal : ckptEpochs [Event.saveFinal] = [] := rfl

theorem ckptEpochs_wandbLog (i : LogInfo) : ckptEpochs [Event.wandbLog i] = [] := rfl

/-- No epoch iteration ever saves the final checkpoint. -/
theorem runEpoch_no_final (valStep : Nat) (useWandb : Bool) (ep : Nat)
    (d : EpochData) (st : RunState) :
    Event.saveFinal ∉ (runEpoch valStep useWandb ep d st).events := by
  by_cases hv : ep % valStep = 0
  · by_cases hne : d.valBatches = []
    · rw [runEpoch_val_empty valStep useWandb ep d st hv hne]
      simp
    · cases hm : computeValMetrics d.valBatches.flatten d.valLoss with
      | error e =>
        rw [runEpoch_val_err valStep useWandb ep d st hv hm hne]
        simp
      | ok m =>
        rw [runEpoch_val_ok valStep useWandb ep d st hv hm hne]
        cases useWandb <;> simp
  · rw [runEpoch_noval valStep useWandb ep d st hv]
    cases useWandb <;> simp

/-- A completed epoch saves the epoch checkpoint exactly when the epoch
counter is a multiple of the validation interval. -/
theorem runEpoch_ckpts (valStep : Nat) (useWandb : Bool) (ep : Nat)
    (d : EpochData) (st : RunState)
    (h : (runEpoch valStep useWandb ep d st).err = none) :
    ckptEpochs (runEpoch valStep useWandb ep d st).events =
      if ep % valStep = 0 then [ep] else [] := by
  rcases runEpoch_err_none valStep useWandb ep d st h with hv | ⟨hv, hne, m, hm⟩
  · rw [if_neg hv, runEpoch_noval valStep useWandb ep d st hv]
    cases useWandb <;>
      simp only [ckptEpochs_append, ckptEpochs_map_trainBatch, ckptEpochs_nil,
        ckptEpochs_wandbLog, List.append_nil, List.nil_append,
        Bool.false_eq_true, if_false, if_true]
  · rw [if_pos hv, runEpoch_val_ok valStep useWandb ep d st hv hm hne]
    cases useWandb <;>
      simp only [ckptEpochs_append, ckptEpochs_map_trainBatch, ckptEpochs_map_valBatch,
        ckptEpochs_nil, ckptEpochs_wandbLog, ckptEpochs_saveCkpt,
        List.append_nil, List.nil_append, Bool.false_eq_true, if_false, if_true]

/-- Over a completed segment of the epoch loop, the checkpoint epochs are
exactly the epochs in range that are multiples of the validation interval,
and the final checkpoint is never saved inside the loop. -/
theorem runEpochs_ckpts (valStep : Nat) (useWandb : Bool) (data : Nat → EpochData) :
    ∀ (n ep : Nat) (st : RunState),
      (runEpochs valStep useWandb data ep n st).err = none →
      ckptEpochs (runEpochs valStep useWandb data ep n st).events =
        (List.range' ep n).filter (fun e => e % valStep == 0) ∧
      Event.saveFinal ∉ (runEpochs valStep useWandb data ep n st).events := by
  intro n
  induction n with
  | zero =>
    intro ep st _
    exact ⟨rfl, by simp [runEpochs]⟩
  | succ n ih =>
    intro ep st h
    simp only [runEpochs] at h ⊢
    cases he : (runEpoch valStep useWandb ep (data ep) st).err with
    | some e =>
      rw [he] at h
      simp at h
    | none =>
      simp only [he] at h ⊢
      obtain ⟨ih1, ih2⟩ :=
        ih (ep + 1) (runEpoch valStep useWandb ep (data ep) st).state h
      refine ⟨?_, ?_⟩
      · rw [ckptEpochs_append, ih1, runEpoch_ckpts valStep useWandb ep (data ep) st he,
          List.range'_succ]
        by_cases hv : ep % valStep = 0
        · rw [if_pos hv]
          simp [List.filter_cons, hv]
        · rw [if_neg hv]
          simp only [List.filter_cons]
          rw [if_neg (by simpa using hv)]
          simp
      · simp only [List.mem_append, not_or]
        exact ⟨runEpoch_no_final valStep useWandb ep (data ep) st, ih2⟩

/-- C5: when a run completes, a checkpoint named by the epoch number is
saved for exactly those epochs whose counter is a multiple of the
configured validation interval — unconditionally, not gated on any running
best having improved — and exactly one additional final checkpoint is
written at run end, as the last event of the run. -/
theorem checkpoint_schedule (valStep : Nat) (useWandb : Bool) (epochs : Nat)
    (data : Nat → EpochData) (_hstep : 0 < valStep)
    (hok : (runMain valStep useWandb epochs data).err = none) :
    ckptEpochs (runMain valStep useWandb epochs data).events =
      (List.range' 1 epochs).filter (fun e => e % valStep == 0) ∧
    (runMain valStep useWandb epochs data).events.count Event.saveFinal = 1 ∧
    (runMain valStep useWandb epochs data).events.getLast? = some Event.saveFinal := by
  simp only [runMain, runTrain] at hok ⊢
  cases he : (runEpochs valStep useWandb data 1 epochs ⟨Mode.trainMode, initBests⟩).err with
  | some e =>
    rw [he] at hok
    simp at hok
  | none =>
    simp only [he] at hok ⊢
    obtain ⟨h1, h2⟩ := runEpochs_ckpts valStep useWandb data epochs 1 _ he
    refine ⟨?_, ?_, ?_⟩
    · rw [ckptEpochs_append, h1, ckptEpochs_saveFinal, List.append_nil]
    · rw [List.count_append]
      rw [List.count_eq_zero.mpr h2]
      rfl
    · exact List.getLast?_concat _


/-- Witness for C5: a two-epoch run with validation every second epoch. -/
theorem checkpoint_schedule_witness :
    ckptEpochs (runMain 2 false 2 (fun _ => ⟨[1], [[(true, true)]], 3⟩)).events =
      (List.range' 1 2).filter (fun e => e % 2 == 0) ∧
    (runMain 2 false 2 (fun _ => ⟨[1], [[(true, true)]], 3⟩)).events.count
      Event.saveFinal = 1 ∧
    (runMain 2 false 2 (fun _ => ⟨[1], [[(true, true)]], 3⟩)).events.getLast? =
      some Event.saveFinal :=
  checkpoint_schedule 2 false 2 (fun _ => ⟨[1], [[(true, true)]], 3⟩)
    (by decide) (by decide)

/-! ## Claim C6: the model mode invariant -/

/-- One epoch started in training mode processes every training batch in
training mode and every validation batch in evaluation mode, and if it
completes it ends back in training mode. -/
theorem runEpoch_modes (valStep : Nat) (useWandb : Bool) (ep : Nat)
    (d : EpochData) (st : RunState) (hst : st.mode = Mode.trainMode) :
    (∀ m, Event.trainBatch m ∈ (runEpoch valStep useWandb ep d st).events →
      m = Mode.trainMode) ∧
    (∀ m, Event.valBatch m ∈ (runEpoch valStep useWandb ep d st).events →
      m = Mode.evalMode) ∧
    ((runEpoch valStep useWandb ep d st).err = none →
      (runEpoch valStep useWandb ep d st).state.mode = Mode.trainMode) := by
  by_cases hv : ep % valStep = 0
  · by_cases hne : d.valBatches = []
    · rw [runEpoch_val_empty valStep useWandb ep d st hv hne]
      simp [hst]
    · cases hm : computeValMetrics d.valBatches.flatten d.valLoss with
      | error e =>
        rw [runEpoch_val_err valStep useWandb ep d st hv hm hne]
        simp [hst]
      | ok m =>
        rw [runEpoch_val_ok valStep useWandb ep d st hv hm hne]
        cases useWandb <;> simp [hst]
  · rw [runEpoch_noval valStep useWandb ep d st hv]
    cases useWandb <;> simp [hst]

/-- The mode discipline over a whole segment of the epoch loop. -/
theorem runEpochs_modes (valStep : Nat) (useWandb : Bool) (data : Nat → EpochData) :
    ∀ (n ep : Nat) (st : RunState), st.mode = Mode.trainMode →
      (∀ m, Event.trainBatch m ∈ (runEpochs valStep useWandb data ep n st).events →
        m = Mode.trainMode) ∧
      (∀ m, Event.valBatch m ∈ (runEpochs valStep useWandb data ep n st).events →
        m = Mode.evalMode) ∧
      ((runEpochs valStep useWandb data ep n st).err = none →
        (runEpochs valStep useWandb data ep n st).state.mode = Mode.trainMode) := by
  intro n
  induction n with
  | zero =>
    intro ep st hst
    refine ⟨fun m hmem => ?_, fun m hmem => ?_, fun _ => hst⟩ <;>
      simp [runEpochs] at hmem
  | succ n ih =>
    intro ep st hst
    simp only [runEpochs]
    obtain ⟨e1, e2, e3⟩ := runEpoch_modes valStep useWandb ep (data ep) st hst
    cases he : (runEpoch valStep useWandb ep (data ep) st).err with
    | some e =>
      simp only [he]
      exact ⟨e1, e2, by simp⟩
    | none =>
      simp only [he]
      obtain ⟨i1, i2, i3⟩ :=
        ih (ep + 1) (runEpoch valStep useWandb ep (data ep) st).state (e3 he)
      refine ⟨?_, ?_, i3⟩
      · intro m hmem
        rcases List.mem_append.mp hmem with h | h
        · exact e1 m h
        · exact i1 m h
      · intro m hmem
        rcases List.mem_append.mp hmem with h | h
        · exact e2 m h
        · exact i2 m h

/-- C6: the model is in evaluation mode only while validation batches are
processed: in any run every training batch is processed in training mode
and every validation batch in evaluation mode; a run that completes ends
in training mode; and any epoch started in training mode that completes
— in particular one that ran validation — has the model restored to
training mode when the epoch's validation phase has returned. -/
theorem model_mode_invariant (valStep : Nat) (useWandb : Bool) (epochs : Nat)
    (data : Nat → EpochData) :
    (∀ m, Event.trainBatch m ∈ (runTrain valStep useWandb epochs data).events →
      m = Mode.trainMode) ∧
    (∀ m, Event.valBatch m ∈ (runTrain valStep useWandb epochs data).events →
      m = Mode.evalMode) ∧
    ((runTrain valStep useWandb epochs data).err = none →
      (runTrain valStep useWandb epochs data).state.mode = Mode.trainMode) ∧
    (∀ (ep : Nat) (d : EpochData) (st : RunState), st.mode = Mode.trainMode →
      (runEpoch valStep useWandb ep d st).err = none →
      (runEpoch valStep useWandb ep d st).state.mode = Mode.trainMode) := by
  obtain ⟨h1, h2, h3⟩ :=
    runEpochs_modes valStep useWandb data epochs 1 ⟨Mode.trainMode, initBests⟩ rfl
  exact ⟨h1, h2, h3,
    fun ep d st hst => (runEpoch_modes valStep useWandb ep d st hst).2.2⟩

/-- Witness for C6: a one-epoch run with validation, ending in training
mode, and one validation epoch restoring training mode. -/
theorem model_mode_invariant_witness :
    (runTrain 1 true 1 (fun _ => ⟨[1], [[(true, true)]], 2⟩)).state.mode =
      Mode.trainMode ∧
    (runEpoch 1 true 1 ⟨[1], [[(true, true)]], 2⟩
      ⟨Mode.trainMode, initBests⟩).state.mode = Mode.trainMode := by
  have h := model_mode_invariant 1 true 1 (fun _ => ⟨[1], [[(true, true)]], 2⟩)
  exact ⟨h.2.2.1 (by decide),
    h.2.2.2 1 ⟨[1], [[(true, true)]], 2⟩ ⟨Mode.trainMode, initBests⟩ rfl (by decide)⟩

/-! ## Claim C7: the per-epoch report -/

theorem filterMap_replicate_none {β γ : Type} (n : Nat) (c : β) (f : β → Option γ)
    (h : f c = none) : (List.replicate n c).filterMap f = [] := by
  induction n with
  | zero => rfl
  | succ k ih => simp [List.replicate_succ, List.filterMap_cons, h, ih]

theorem wandbLogs_nil : wandbLogs [] = [] := rfl

theorem wandbLogs_saveCkpt (ep : Nat) : wandbLogs [Event.saveCkpt ep] = [] := rfl

theorem wandbLogs_wandbLog (i : LogInfo) : wandbLogs [Event.wandbLog i] = [i] := rfl

theorem wandbLogs_replicate_trainBatch (n : Nat) (m : Mode) :
    wandbLogs (List.replicate n (Event.trainBatch m)) = [] :=
  filterMap_replicate_none n _ _ rfl

theorem wandbLogs_replicate_valBatch (n : Nat) (m : Mode) :
    wandbLogs (List.replicate n (Event.valBatch m)) = [] :=
  filterMap_replicate_none n _ _ rfl

/-- A successful metric block returns exactly the four metrics the source
computes: the criterion loss, the accuracy, the precision, and the recall
division. -/
theorem computeValMetrics_ok_fields {samples : List Sample} {valLoss : ℚ}
    {m : ValMetrics} (hm : computeValMetrics samples valLoss = .ok m) :
    m.val_loss = valLoss ∧ m.val_acc = accuracy samples ∧
    m.val_precision = precision samples ∧
    m.val_recall = (countTP samples : ℚ) / (posLabels samples : ℚ) := by
  unfold computeValMetrics recallResult at hm
  by_cases hp : posLabels samples = 0
  · rw [if_pos hp] at hm
    cases hm
  · rw [if_neg hp] at hm
    injection hm with h
    subst h
    exact ⟨rfl, rfl, rfl, rfl⟩

/-- C7: with tracking enabled, every epoch that completes emits exactly
one report; the report carries the epoch's average training loss; on a
validation epoch it additionally carries the four computed validation
metrics (validation loss, accuracy, precision, recall), and on a
non-validation epoch it carries no validation metrics. -/
theorem wandb_report_per_epoch (valStep : Nat) (ep : Nat) (d : EpochData)
    (st : RunState) (hok : (runEpoch valStep true ep d st).err = none) :
    wandbLogs (runEpoch valStep true ep d st).events =
      [⟨avgLoss d.trainLosses,
        if ep % valStep = 0 then
          (computeValMetrics d.valBatches.flatten d.valLoss).toOption
        else none⟩] ∧
    (ep % valStep = 0 →
      ∃ m, computeValMetrics d.valBatches.flatten d.valLoss = .ok m ∧
        m.val_loss = d.valLoss ∧
        m.val_acc = accuracy d.valBatches.flatten ∧
        m.val_precision = precision d.valBatches.flatten ∧
        m.val_recall = (countTP d.valBatches.flatten : ℚ) /
          (posLabels d.valBatches.flatten : ℚ)) := by
  rcases runEpoch_err_none valStep true ep d st hok with hv | ⟨hv, hne, m, hm⟩
  · rw [runEpoch_noval valStep true ep d st hv]
    refine ⟨?_, fun h => absurd h hv⟩
    rw [if_neg hv]
    simp [wandbLogs_append, wandbLogs_map_trainBatch,
      wandbLogs_replicate_trainBatch, wandbLogs_wandbLog, wandbLogs_nil]
  · rw [runEpoch_val_ok valStep true ep d st hv hm hne]
    refine ⟨?_, fun _ => ⟨m, hm, computeValMetrics_ok_fields hm⟩⟩
    rw [if_pos hv, hm]
    simp [wandbLogs_append, wandbLogs_map_trainBatch, wandbLogs_map_valBatch,
      wandbLogs_replicate_trainBatch, wandbLogs_replicate_valBatch,
      wandbLogs_saveCkpt, wandbLogs_wandbLog, wandbLogs_nil, Except.toOption,
      wandbLogs, List.filterMap_cons, List.filterMap_nil]

/-- Witness for C7: one validation epoch and one non-validation epoch. -/
theorem wandb_report_per_epoch_witness :
    wandbLogs (runEpoch 1 true 1 ⟨[3], [[(true, true)]], 2⟩
        ⟨Mode.trainMode, initBests⟩).events =
      [⟨avgLoss [3],
        if 1 % 1 = 0 then
          (computeValMetrics ([[((true : Bool), (true : Bool))]] :
            List (List Sample)).flatten 2).toOption
        else none⟩] ∧
    wandbLogs (runEpoch 2 true 1 ⟨[3], [[(true, true)]], 2⟩
        ⟨Mode.trainMode, initBests⟩).events =
      [⟨avgLoss [3],
        if 1 % 2 = 0 then
          (computeValMetrics ([[((true : Bool), (true : Bool))]] :
            List (List Sample)).flatten 2).toOption
        else none⟩] :=
  ⟨(wandb_report_per_epoch 1 1 ⟨[3], [[(true, true)]], 2⟩
      ⟨Mode.trainMode, initBests⟩ (by decide)).1,
   (wandb_report_per_epoch 2 1 ⟨[3], [[(true, true)]], 2⟩
      ⟨Mode.trainMode, initBests⟩ (by decide)).1⟩

/-! ## Claim C8: missing configuration keys -/

theorem getKey_bind_ok {α β : Type} {key : String} {v : Option α}
    {f : α → Except SetupError β} {s : β}
    (h : (getKey key v >>= f) = .ok s) : ∃ a, v = some a ∧ f a = .ok s := by
  cases v with
  | none => simp [getKey, Bind.bind, Except.bind] at h
  | some a =>
    refine ⟨a, rfl, ?_⟩
    simpa [getKey, Bind.bind, Except.bind] using h

/-- Setup only succeeds when every required configuration key is present:
every key is read before the epoch loop. -/
theorem setup_ok_keys {c : Config} {s : Settings} (h : setup c = .ok s) :
    c.cuda.isSome ∧ c.wandb.isSome ∧ c.epochs.isSome ∧ c.batch_size.isSome ∧
    c.val_step.isSome ∧ c.ema.isSome ∧ c.workers.isSome ∧ c.sgd.isSome ∧
    c.scheduler.isSome ∧ c.train_path.isSome ∧ c.val_path.isSome ∧
    c.pos_weight.isSome := by
  unfold setup at h
  obtain ⟨a1, h1, h⟩ := getKey_bind_ok h
  obtain ⟨a2, h2, h⟩ := getKey_bind_ok h
  obtain ⟨a3, h3, h⟩ := getKey_bind_ok h
  obtain ⟨a4, h4, h⟩ := getKey_bind_ok h
  obtain ⟨a5, h5, h⟩ := getKey_bind_ok h
  obtain ⟨a6, h6, h⟩ := getKey_bind_ok h
  obtain ⟨a7, h7, h⟩ := getKey_bind_ok h
  obtain ⟨a8, h8, h⟩ := getKey_bind_ok h
  obtain ⟨a9, h9, h⟩ := getKey_bind_ok h
  obtain ⟨a10, h10, h⟩ := getKey_bind_ok h
  obtain ⟨a11, h11, h⟩ := getKey_bind_ok h
  obtain ⟨a12, h12, h⟩ := getKey_bind_ok h
  simp [h1, h2, h3, h4, h5, h6, h7, h8, h9, h10, h11, h12]

/-- C8: if any required configuration key (device flag, tracking flag,
epoch count, batch size, validation interval, EMA flag, worker count, SGD
hyperparameters, scheduler flag, dataset paths, positive-class weight) is
absent, the program fails with a ConfigurationError during setup, before
any training step executes — the run emits no event at all. -/
theorem missing_config_key_fails (c : Config) (data : Nat → EpochData)
    (h : c.cuda = none ∨ c.wandb = none ∨ c.epochs = none ∨
         c.batch_size = none ∨ c.val_step = none ∨ c.ema = none ∨
         c.workers = none ∨ c.sgd = none ∨ c.scheduler = none ∨
         c.train_path = none ∨ c.val_path = none ∨ c.pos_weight = none) :
    (∃ k, fullRun c data = .configFailed (.configurationError k)) ∧
    (fullRun c data).events = [] := by
  cases hs : setup c with
  | error e =>
    cases e with
    | configurationError k =>
      refine ⟨⟨k, ?_⟩, ?_⟩ <;> simp [fullRun, hs, FullResult.events]
  | ok s =>
    exfalso
    have hk := setup_ok_keys hs
    rcases h with h | h | h | h | h | h | h | h | h | h | h | h <;>
      simp [h] at hk

/-- Witness for C8: a configuration missing only `pos_weight`. -/
theorem missing_config_key_fails_witness :
    (∃ k, fullRun ⟨some true, some false, some 1, some 4, some 1, some false,
        some 0, some ⟨1, 0, false, 0⟩, some false, some "data/train",
        some "data/val", none⟩ (fun _ => ⟨[], [], 0⟩) =
      .configFailed (.configurationError k)) ∧
    (fullRun ⟨some true, some false, some 1, some 4, some 1, some false,
        some 0, some ⟨1, 0, false, 0⟩, some false, some "data/train",
        some "data/val", none⟩ (fun _ => ⟨[], [], 0⟩)).events = [] :=
  missing_config_key_fails _ _ (by decide)

/-! ## Claim C9: an empty validation set -/

theorem ckptEpochs_replicate_trainBatch (n : Nat) (m : Mode) :
    ckptEpochs (List.replicate n (Event.trainBatch m)) = [] :=
  filterMap_replicate_none n _ _ rfl

theorem ckptEpochs_replicate_valBatch (n : Nat) (m : Mode) :
    ckptEpochs (List.replicate n (Event.valBatch m)) = [] :=
  filterMap_replicate_none n _ _ rfl

/-- C9: on a validation epoch whose validation loader yields no batches,
the epoch fails at the concatenation step with the empty-concat error —
no checkpoint is saved, no report is emitted and the running bests are
untouched, so the failure precedes every metric computation — and
conversely every validation epoch that completes had a non-empty
validation set. -/
theorem empty_val_set_fails (valStep : Nat) (useWandb : Bool) (ep : Nat)
    (d : EpochData) (st : RunState) (hval : ep % valStep = 0) :
    (d.valBatches = [] →
      (runEpoch valStep useWandb ep d st).err = some .emptyValConcat ∧
      ckptEpochs (runEpoch valStep useWandb ep d st).events = [] ∧
      wandbLogs (runEpoch valStep useWandb ep d st).events = [] ∧
      (runEpoch valStep useWandb ep d st).state.bests = st.bests) ∧
    ((runEpoch valStep useWandb ep d st).err = none → d.valBatches ≠ []) := by
  constructor
  · intro he
    rw [runEpoch_val_empty valStep useWandb ep d st hval he]
    refine ⟨rfl, ?_, ?_, rfl⟩
    · rw [he]
      simp [ckptEpochs_append, ckptEpochs_map_trainBatch,
        ckptEpochs_replicate_trainBatch, ckptEpochs_nil]
    · rw [he]
      simp [wandbLogs_append, wandbLogs_map_trainBatch,
        wandbLogs_replicate_trainBatch, wandbLogs_nil]
  · intro hok he
    rw [runEpoch_val_empty valStep useWandb ep d st hval he] at hok
    simp at hok

/-- Witness for C9: a validation epoch with an empty validation set. -/
theorem empty_val_set_fails_witness :
    (runEpoch 1 false 1 ⟨[1], [], 0⟩ ⟨Mode.trainMode, initBests⟩).err =
      some RunError.emptyValConcat ∧
    ckptEpochs (runEpoch 1 false 1 ⟨[1], [], 0⟩
      ⟨Mode.trainMode, initBests⟩).events = [] := by
  have h := (empty_val_set_fails 1 false 1 ⟨[1], [], 0⟩
    ⟨Mode.trainMode, initBests⟩ rfl).1 rfl
  exact ⟨h.1, h.2.1⟩

/-! ## Claim C10: where the recall failure leaves the run -/

/-- C10: on a validation epoch whose non-empty validation set has zero
positive labels, the recall division fails before that epoch's checkpoint
save and before the model is switched back to training mode: the epoch
ends with the division-by-zero error, no checkpoint is saved for the
epoch, no report is emitted, the running bests are untouched, and the
model is left in evaluation mode. -/
theorem recall_failure_state (valStep : Nat) (useWandb : Bool) (ep : Nat)
    (d : EpochData) (st : RunState) (hval : ep % valStep = 0)
    (hne : d.valBatches ≠ []) (hnopos : posLabels d.valBatches.flatten = 0) :
    (runEpoch valStep useWandb ep d st).err = some .divByZeroRecall ∧
    (runEpoch valStep useWandb ep d st).state.mode = Mode.evalMode ∧
    (runEpoch valStep useWandb ep d st).state.bests = st.bests ∧
    ckptEpochs (runEpoch valStep useWandb ep d st).events = [] ∧
    wandbLogs (runEpoch valStep useWandb ep d st).events = [] := by
  have hm : computeValMetrics d.valBatches.flatten d.valLoss =
      .error .divByZeroRecall := by
    unfold computeValMetrics recallResult
    rw [if_pos hnopos]
  rw [runEpoch_val_err valStep useWandb ep d st hval hm hne]
  refine ⟨rfl, rfl, rfl, ?_, ?_⟩
  · simp [ckptEpochs_append, ckptEpochs_map_trainBatch, ckptEpochs_map_valBatch,
      ckptEpochs_replicate_trainBatch, ckptEpochs_replicate_valBatch,
      ckptEpochs_nil]
  · simp [wandbLogs_append, wandbLogs_map_trainBatch, wandbLogs_map_valBatch,
      wandbLogs_replicate_trainBatch, wandbLogs_replicate_valBatch,
      wandbLogs_nil]

/-- Witness for C10: one validation sample, predicted positive, labelled
negative. -/
theorem recall_failure_state_witness :
    (runEpoch 1 false 1 ⟨[1], [[(true, false)]], 0⟩
      ⟨Mode.trainMode, initBests⟩).err = some RunError.divByZeroRecall ∧
    (runEpoch 1 false 1 ⟨[1], [[(true, false)]], 0⟩
      ⟨Mode.trainMode, initBests⟩).state.mode = Mode.evalMode := by
  have h := recall_failure_state 1 false 1 ⟨[1], [[(true, false)]], 0⟩
    ⟨Mode.trainMode, initBests⟩ rfl (by decide) (by decide)
  exact ⟨h.1, h.2.1⟩

end Flood
